import Mathlib

/-
Verification of the toolbox multicall-binary builder (toolbox.py, the
hardened variant, with manager.py as the simpler variant) against its
natural-language specification.  The Python code is shallowly embedded:
the filesystem is an association list from paths (component lists) to
nodes (regular files or symbolic links), commands are functions from a
filesystem to a filesystem paired with an optional error, and the
generated C dispatcher's argv-routing is embedded as a Lean function on
argument vectors.
-/

namespace Toolbox

/-! ### Name validation (toolbox.py: TOOL_RE, validate_tool) -/

/-- Error taxonomy of the spec (section 7) as raised by the code paths
modelled here. -/
inductive Err
  | invalidName
  | alreadyExists
  | noTools
  | noCompiler
  | buildError
  | fileExistsError
deriving DecidableEq

/-- Character class `[a-z]`. -/
def isLowerAZ (c : Char) : Bool := decide ('a' ≤ c) && decide (c ≤ 'z')

/-- Character class `[a-z0-9_]`. -/
def isNameTail (c : Char) : Bool :=
  isLowerAZ c || (decide ('0' ≤ c) && decide (c ≤ '9')) || c == '_'

/-- Membership of a character list in the language of `[a-z][a-z0-9_]*`. -/
def matchesCore : List Char → Bool
  | [] => false
  | c :: cs => isLowerAZ c && cs.all isNameTail

/-- Membership of a string in the language `^[a-z][a-z0-9_]*$` read as a
plain (full-match) regular expression, the language the spec names. -/
def matchesToolRe (s : String) : Bool := matchesCore s.data

/-- `TOOL_RE.match(name)` truthiness as Python's `re` evaluates it:
`$` also matches just before a single newline at the very end of the
string, so a valid name followed by one trailing newline is accepted. -/
def pyMatchToolRe (s : String) : Bool :=
  matchesToolRe s ||
    (match s.data.getLast? with
     | some c => c == '\n' && matchesCore s.data.dropLast
     | none => false)

/-- toolbox.py `validate_tool`: dies with an invalid-name error unless
`TOOL_RE.match(name)`, otherwise returns the name unchanged. -/
def validate_tool (s : String) : Except Err String :=
  if pyMatchToolRe s then Except.ok s else Except.error Err.invalidName

/-- manager.py `NAME_PATTERN` core language `[A-Za-z_][A-Za-z0-9_]*`
(the simpler variant's more permissive grammar). -/
def managerMatchesCore : List Char → Bool
  | [] => false
  | c :: cs =>
      (isLowerAZ c || (decide ('A' ≤ c) && decide (c ≤ 'Z')) || c == '_') &&
        cs.all (fun d =>
          isNameTail d || (decide ('A' ≤ d) && decide (d ≤ 'Z')))

/-- manager.py `is_valid_tool_name`, including the same trailing-newline
behaviour of Python's `$`. -/
def is_valid_tool_name (s : String) : Bool :=
  managerMatchesCore s.data ||
    (match s.data.getLast? with
     | some c => c == '\n' && managerMatchesCore s.data.dropLast
     | none => false)

/-! ### Paths, registry listing (toolbox.py: list_tools) -/

/-- A filesystem path as its list of components (`["tools", "ping.c"]`). -/
abbrev FsPath := List String

/-- The canonical application name (`APP_NAME = "toolbox"`). -/
def APP_NAME : String := "toolbox"

/-- `VERSION = "2.1.0"`. -/
def VERSION : String := "2.1.0"

/-- Path of a registered module source: `TOOLS / f"{name}.c"`. -/
def toolsPath (n : String) : FsPath := ["tools", n ++ ".c"]

/-- Path of an installed entry point: `BIN / t`. -/
def binPath (t : String) : FsPath := ["bin", t]

/-- Path of the generated dispatcher source: `BUILD / "main.c"`. -/
def buildMainC : FsPath := ["build", "main.c"]

/-- Path of the compiled multicall binary: `BUILD / APP_NAME`. -/
def outPath : FsPath := ["build", APP_NAME]

/-- Does a filename match the glob `*.c` (equivalently, end in `.c`)? -/
def isCFile (f : String) : Bool :=
  match f.data.reverse with
  | 'c' :: '.' :: _ => true
  | _ => false

/-- `Path.stem` of a `*.c` filename: the name with the final `.c` suffix
removed; pathlib treats a lone `.c` as having no suffix, so its stem is
itself. -/
def stemOfC (f : String) : String :=
  if f = ".c" then f else String.mk f.data.dropLast.dropLast

/-- toolbox.py `list_tools`: the sorted stems of every `*.c` file in the
tools directory — note there is no name validation here. -/
def list_tools (files : List String) : List String :=
  List.insertionSort (fun a b : String => a ≤ b)
    ((files.filter isCFile).map stemOfC)

/-- manager.py `construct`'s listing: like `list_tools` but it skips any
stem that fails the simpler variant's `is_valid_tool_name`. -/
def manager_listing (files : List String) : List String :=
  List.insertionSort (fun a b : String => a ≤ b)
    ((files.filter (fun f => isCFile f && is_valid_tool_name (stemOfC f))).map
      stemOfC)

/-! ### Filesystem model -/

/-- A directory entry: a regular file with content, or a symbolic link to
a target path. -/
inductive FsNode
  | file (content : String)
  | symlink (target : FsPath)
deriving DecidableEq

/-- A filesystem: an association list from paths to nodes (first match
wins). -/
abbrev FS := List (FsPath × FsNode)

/-- Look a path up without following symlinks (`lstat` view). -/
def lookupFs : FS → FsPath → Option FsNode
  | [], _ => none
  | (q, n) :: rest, p => if q = p then some n else lookupFs rest p

/-- Remove every entry at a path (`unlink` acts on the link itself). -/
def eraseFs : FS → FsPath → FS
  | [], _ => []
  | (q, n) :: rest, p =>
      if q = p then eraseFs rest p else (q, n) :: eraseFs rest p

/-- Create or replace the entry at a path. -/
def insertFs (fs : FS) (p : FsPath) (n : FsNode) : FS := (p, n) :: eraseFs fs p

/-- Follow a symlink chain with bounded fuel (the kernel's symlink-loop
bound), reporting whether a real file is reached. -/
def resolveExists (fs : FS) : Nat → FsPath → Bool
  | 0, _ => false
  | fuel + 1, p =>
      match lookupFs fs p with
      | some (FsNode.file _) => true
      | some (FsNode.symlink t) => resolveExists fs fuel t
      | none => false

/-- Python `Path.exists()`: follows symlinks, so it is `false` on a
dangling symlink. -/
def pathExists (fs : FS) (p : FsPath) : Bool :=
  match lookupFs fs p with
  | some (FsNode.file _) => true
  | some (FsNode.symlink t) => resolveExists fs 40 t
  | none => false

/-! ### Atomic writes (toolbox.py: atomic_write) -/

/-- The primitive filesystem operations `atomic_write` performs. -/
inductive FsOp
  | createTmp (tmp : FsPath)
  | writeTmp (tmp : FsPath) (data : String)
  | rename (src : FsPath) (dst : FsPath)
deriving DecidableEq

/-- Effect of one operation: temp-file creation and writing touch only
the temp path, and `os.replace` moves the source node onto the
destination in one step. -/
def applyOp (fs : FS) : FsOp → FS
  | FsOp.createTmp t => insertFs fs t (FsNode.file (""))
  | FsOp.writeTmp t d => insertFs fs t (FsNode.file d)
  | FsOp.rename s d =>
      match lookupFs fs s with
      | some n => insertFs (eraseFs fs s) d n
      | none => fs

/-- Run a sequence of operations left to right. -/
def runOps (fs : FS) (ops : List FsOp) : FS := ops.foldl applyOp fs

/-- toolbox.py `atomic_write(path, data)` as its operation sequence: a
`NamedTemporaryFile` is created in `path.parent` (same directory), the
data is written to it, and `os.replace` renames it onto the target as
the one final operation. `tmpName` stands for the fresh name the
tempfile module chooses. -/
def atomicWriteOps (path : FsPath) (data : String) (tmpName : String) :
    List FsOp :=
  [FsOp.createTmp (path.dropLast ++ [tmpName]),
   FsOp.writeTmp (path.dropLast ++ [tmpName]) data,
   FsOp.rename (path.dropLast ++ [tmpName]) path]

/-! ### Embedded C templates (toolbox.py: tool_template, dispatcher_template) -/

/-- toolbox.py `tool_template(name)`: the skeleton module source. -/
def tool_template (name : String) : String :=
  String.intercalate ("\n")
    ["#include <stdio.h>",
     "",
     "/* Optional:",
     " * const char *" ++ name ++ "_desc = \"Description\";",
     " */",
     "",
     "const char *" ++ name ++ "_help =",
     "    \"Usage: " ++ name ++ " [args]\\n\"",
     "    \"Description: " ++ name ++ " tool.\\n\"",
     "    \"Options:\\n\"",
     "    \"  -h, --help  Show this help.\\n\";",
     "",
     "int " ++ name ++ "_main(int argc, char **argv) \x7b",
     "    (void)argc; (void)argv;",
     "    printf(\"Running " ++ name ++ "\\n\");",
     "    return 0;",
     "\x7d",
     ""]

/-- The three forward declarations `dispatcher_template` emits per tool. -/
def declLines (t : String) : List String :=
  ["int " ++ t ++ "_main(int, char**);",
   "extern const char *" ++ t ++ "_desc __attribute__((weak));",
   "extern const char *" ++ t ++ "_help __attribute__((weak));"]

/-- The dispatch-table entry `dispatcher_template` emits per tool. -/
def entryLine (t : String) : String :=
  "    \x7b\"" ++ t ++ "\", " ++ t ++ "_main, &" ++ t ++ "_desc, &" ++
    t ++ "_help\x7d,"

/-- toolbox.py `dispatcher_template(tools)`: the generated multicall C
source, line for line. -/
def dispatcher_template (tools : List String) : String :=
  String.intercalate ("\n")
    (["",
      "#include <stdio.h>",
      "#include <string.h>",
      "#include <libgen.h>",
      "",
      "#define APP \"" ++ APP_NAME ++ "\"",
      "#define VER \"" ++ VERSION ++ "\"",
      "",
      "struct Tool \x7b",
      "    const char *name;",
      "    int (*fn)(int,char**);",
      "    const char **desc;",
      "    const char **help;",
      "\x7d;",
      ""] ++
     (tools.map declLines).flatten ++
     ["",
      "static struct Tool tools[] = \x7b"] ++
     tools.map entryLine ++
     ["    \x7bNULL,NULL,NULL,NULL\x7d",
      "\x7d;",
      "",
      "static void help() \x7b",
      "    printf(\"%s v%s\\n\", APP, VER);",
      "    printf(\"Usage: %s <cmd> [args]\\n\\n\", APP);",
      "    for (int i=0; tools[i].name; i++) \x7b",
      "        const char *d = (tools[i].desc && *tools[i].desc) ? *tools[i].desc : \"\";",
      "        printf(\"  %-16s %s\\n\", tools[i].name, d);",
      "    \x7d",
      "\x7d",
      "",
      "static void tool_help(const char *name) \x7b",
      "    for (int i=0; tools[i].name; i++) \x7b",
      "        if (!strcmp(name, tools[i].name)) \x7b",
      "            if (tools[i].desc && *tools[i].desc)",
      "                printf(\"%s - %s\\n\", name, *tools[i].desc);",
      "            if (tools[i].help && *tools[i].help) \x7b",
      "                printf(\"%s\\n\", *tools[i].help);",
      "            \x7d else \x7b",
      "                printf(\"Usage: %s [args]\\n\", name);",
      "            \x7d",
      "            return;",
      "        \x7d",
      "    \x7d",
      "    printf(\"Unknown command: %s\\n\", name);",
      "\x7d",
      "",
      "static int dispatch(const char *name, int argc, char **argv) \x7b",
      "    if (argc > 1 && (!strcmp(argv[1], \"--help\") || !strcmp(argv[1], \"-h\"))) \x7b",
      "        tool_help(name);",
      "        return 0;",
      "    \x7d",
      "    for (int i=0; tools[i].name; i++)",
      "        if (!strcmp(name, tools[i].name))",
      "            return tools[i].fn(argc, argv);",
      "    fprintf(stderr, \"Unknown command: %s\\n\", name);",
      "    return 1;",
      "\x7d",
      "",
      "int main(int argc, char **argv) \x7b",
      "    char *prog = basename(argv[0]);",
      "",
      "    if (argc > 1 && (!strcmp(argv[1], \"--help\") || !strcmp(argv[1], \"-h\"))) \x7b",
      "        help(); return 0;",
      "    \x7d",
      "",
      "    if (!strcmp(prog, APP)) \x7b",
      "        if (argc < 2) \x7b help(); return 0; \x7d",
      "        return dispatch(argv[1], argc-1, argv+1);",
      "    \x7d",
      "",
      "    return dispatch(prog, argc, argv);",
      "\x7d",
      ""])

/-! ### Commands (toolbox.py: cmd_create, find_cc, cmd_build) -/

/-- toolbox.py `cmd_create(name)`: validate, refuse to overwrite an
existing module (`path.exists()`), otherwise atomically write the
skeleton.  Returns the resulting filesystem and the error, if any; on
error the filesystem is returned unchanged, as the code mutated
nothing before dying. -/
def cmd_create (fs : FS) (name : String) (tmpName : String) :
    FS × Option Err :=
  match validate_tool name with
  | Except.error e => (fs, some e)
  | Except.ok n =>
      if pathExists fs (toolsPath n) then (fs, some Err.alreadyExists)
      else
        (runOps fs (atomicWriteOps (toolsPath n) (tool_template n) tmpName),
         none)

/-- toolbox.py `find_cc`: first of `gcc`, `clang` resolvable on the
execution path (each argument is `shutil.which`'s answer), else the
no-compiler error. -/
def find_cc (gcc clang : Option String) : Except Err String :=
  match gcc with
  | some p => Except.ok p
  | none =>
      match clang with
      | some p => Except.ok p
      | none => Except.error Err.noCompiler

/-- The filenames sitting in the tools directory of a filesystem. -/
def toolsDirFiles (fs : FS) : List String :=
  fs.filterMap (fun e =>
    match e.1 with
    | ["tools", f] => some f
    | _ => none)

/-- The registry listing `cmd_build` reads. -/
def toolsList (fs : FS) : List String := list_tools (toolsDirFiles fs)

/-- One iteration of `cmd_build`'s install loop before the symlink call:
`if link.exists(): link.unlink()`.  `Path.exists` follows symlinks, so a
dangling link is left in place. -/
def unlinkIfExists (fs : FS) (link : FsPath) : FS :=
  if pathExists fs link then eraseFs fs link else fs

/-- One iteration of `cmd_build`'s install loop: remove the entry if
`exists()` says so, then `link.symlink_to(out)`, which raises
`FileExistsError` when any directory entry (including a dangling
symlink) still occupies the name. -/
def installOne (fs : FS) (link : FsPath) (out : FsPath) : FS × Option Err :=
  match lookupFs (unlinkIfExists fs link) link with
  | some _ => (unlinkIfExists fs link, some Err.fileExistsError)
  | none =>
      (insertFs (unlinkIfExists fs link) link (FsNode.symlink out), none)

/-- `cmd_build`'s install loop over `tools + [APP_NAME]`, stopping at the
first error with the partially updated filesystem (the loop is not
transactional across names). -/
def installAll (fs : FS) (names : List String) (out : FsPath) :
    FS × Option Err :=
  match names with
  | [] => (fs, none)
  | t :: ts =>
      match installOne fs (binPath t) out with
      | (fs1, none) => installAll fs1 ts out
      | (fs1, some e) => (fs1, some e)

/-- toolbox.py `cmd_build()`: resolve a compiler, read the listing and
fail on an empty registry, atomically write the generated dispatcher to
`build/main.c`, invoke the compiler once (`compileOk` is the external
compiler's verdict; on success it deposits the binary at
`build/toolbox`), then install one symlink per tool name plus the
canonical name.  The returned filesystem reflects every write performed
before an error, exactly as the process leaves the disk. -/
def cmd_build (fs : FS) (gcc clang : Option String) (tmpName : String)
    (compileOk : Bool) : FS × Option Err :=
  match find_cc gcc clang with
  | Except.error e => (fs, some e)
  | Except.ok _ =>
      if toolsList fs = [] then (fs, some Err.noTools)
      else if compileOk then
        installAll
          (insertFs
            (runOps fs
              (atomicWriteOps buildMainC (dispatcher_template (toolsList fs))
                tmpName))
            outPath (FsNode.file ("ELF")))
          (toolsList fs ++ [APP_NAME]) outPath
      else
        (runOps fs
          (atomicWriteOps buildMainC (dispatcher_template (toolsList fs))
            tmpName),
         some Err.buildError)

/-! ### Runtime semantics of the generated dispatcher

The compiled multicall binary's argv-routing, read off the C text that
`dispatcher_template` generates (`main`, `dispatch`, `tool_help`,
`help`). -/

/-- Observable outcome of one invocation of the compiled binary. -/
inductive DispatchResult
  | globalHelp
  | toolHelp (name : String)
  | callTool (name : String) (argc : Nat) (argv : List String)
  | unknownCmd (name : String)
deriving DecidableEq

/-- `!strcmp(s, "--help") || !strcmp(s, "-h")`. -/
def isHelpFlag (s : String) : Bool := decide (s = "--help" ∨ s = "-h")

/-- `argc > 1 && (argv[1] is a help flag)`. -/
def helpFirst : List String → Bool
  | _ :: a :: _ => isHelpFlag a
  | _ => false

/-- `basename(argv[0])`: the part of the string after the last `/`. -/
def basename (s : String) : String :=
  String.mk (s.data.foldl (fun acc c => if c = '/' then [] else acc ++ [c]) [])

/-- The generated `dispatch(name, argc, argv)`: per-tool help on a help
flag in `argv[1]`, else linear search of the dispatch table, calling the
entry function with the given vector; unknown names report an error and
return 1. -/
def dispatch (tools : List String) (name : String) (argv : List String) :
    DispatchResult :=
  if helpFirst argv then DispatchResult.toolHelp name
  else if name ∈ tools then DispatchResult.callTool name argv.length argv
  else DispatchResult.unknownCmd name

/-- The generated `main(argc, argv)` with `argv = a0 :: rest`: global
help when `argv[1]` is a help flag; canonical-name invocation shifts the
vector by one and dispatches `argv[1]`; any other invoked name (the
symlink case) is dispatched with the original vector unchanged. -/
def cMain (tools : List String) (a0 : String) (rest : List String) :
    DispatchResult :=
  if helpFirst (a0 :: rest) then DispatchResult.globalHelp
  else if basename a0 = APP_NAME then
    match rest with
    | [] => DispatchResult.globalHelp
    | a1 :: _ => dispatch tools a1 rest
  else dispatch tools (basename a0) (a0 :: rest)

/-- The `name - desc` line `tool_help` prints when a description symbol
is present. -/
def descPart (name : String) (desc : Option String) : String :=
  match desc with
  | some d => name ++ " - " ++ d ++ "\n"
  | none => ""

/-- What the generated `tool_help` prints for a registered tool, given
the weak-bound description and help symbols (absent symbols resolve to
null and are skipped): the help text when present, else the generic
one-line usage string. -/
def tool_help_output (name : String) (desc helpText : Option String) :
    String :=
  descPart name desc ++
    (match helpText with
     | some h => h ++ "\n"
     | none => "Usage: " ++ name ++ " [args]\n")

/-! ### Association-list filesystem lemmas -/

theorem lookupFs_insert_self (fs : FS) (p : FsPath) (n : FsNode) :
    lookupFs (insertFs fs p n) p = some n := by
  simp [insertFs, lookupFs]

theorem lookupFs_erase_self (fs : FS) (p : FsPath) :
    lookupFs (eraseFs fs p) p = none := by
  induction fs with
  | nil => simp [eraseFs, lookupFs]
  | cons e rest ih =>
      obtain ⟨q, m⟩ := e
      by_cases h : q = p
      · simp [eraseFs, h, ih]
      · simp [eraseFs, lookupFs, h, ih]

theorem lookupFs_erase_ne (fs : FS) (p q : FsPath) (h : q ≠ p) :
    lookupFs (eraseFs fs p) q = lookupFs fs q := by
  induction fs with
  | nil => simp [eraseFs]
  | cons e rest ih =>
      obtain ⟨a, m⟩ := e
      have hpq : ¬p = q := fun hx => h hx.symm
      by_cases ha : a = p
      · have haq : ¬a = q := fun hx => h (by rw [← hx, ha])
        simp [eraseFs, lookupFs, ha, haq, hpq, ih]
      · by_cases haq : a = q <;> simp [eraseFs, lookupFs, ha, haq, h, hpq, ih]

theorem lookupFs_insert_ne (fs : FS) (p : FsPath) (n : FsNode) (q : FsPath)
    (h : q ≠ p) : lookupFs (insertFs fs p n) q = lookupFs fs q := by
  have hp : p ≠ q := fun hx => h hx.symm
  simp [insertFs, lookupFs, hp]
  exact lookupFs_erase_ne fs p q h

theorem lookupFs_unlink_ne (fs : FS) (link q : FsPath) (h : q ≠ link) :
    lookupFs (unlinkIfExists fs link) q = lookupFs fs q := by
  unfold unlinkIfExists
  split
  · exact lookupFs_erase_ne fs link q h
  · rfl

/-! ### Install-loop lemmas -/

theorem binPath_inj {a b : String} (h : binPath a = binPath b) : a = b := by
  simpa [binPath] using h

theorem installOne_frame {fs : FS} {link out : FsPath} {fs' : FS}
    {e : Option Err} (h : installOne fs link out = (fs', e)) {q : FsPath}
    (hq : q ≠ link) : lookupFs fs' q = lookupFs fs q := by
  unfold installOne at h
  split at h
  · cases h
    exact lookupFs_unlink_ne fs link q hq
  · cases h
    rw [lookupFs_insert_ne _ _ _ _ hq]
    exact lookupFs_unlink_ne fs link q hq

theorem installOne_ok_lookup {fs : FS} {link out : FsPath} {fs' : FS}
    (h : installOne fs link out = (fs', none)) :
    lookupFs fs' link = some (FsNode.symlink out) := by
  unfold installOne at h
  split at h
  · simp at h
  · cases h
    exact lookupFs_insert_self _ _ _

theorem installOne_ok_domain {fs : FS} {link out : FsPath} {fs' : FS}
    (h : installOne fs link out = (fs', none)) (p : FsPath) :
    (lookupFs fs' p).isSome ↔ ((lookupFs fs p).isSome ∨ p = link) := by
  by_cases hp : p = link
  · subst hp
    rw [installOne_ok_lookup h]
    simp
  · rw [installOne_frame h hp]
    simp [hp]

theorem installAll_frame {names : List String} {fs : FS} {out : FsPath}
    {fs' : FS} {e : Option Err} (h : installAll fs names out = (fs', e))
    {q : FsPath} (hq : ∀ t ∈ names, q ≠ binPath t) :
    lookupFs fs' q = lookupFs fs q := by
  induction names generalizing fs with
  | nil =>
      unfold installAll at h
      cases h
      rfl
  | cons t ts ih =>
      unfold installAll at h
      rcases h1 : installOne fs (binPath t) out with ⟨fs1, e1⟩
      rw [h1] at h
      cases e1 with
      | none =>
          have hrest := ih h (fun u hu => hq u (List.mem_cons_of_mem _ hu))
          rw [hrest]
          exact installOne_frame h1 (hq t (List.mem_cons_self t ts))
      | some e2 =>
          cases h
          exact installOne_frame h1 (hq t (List.mem_cons_self t ts))

theorem installAll_ok_cons {fs : FS} {t : String} {ts : List String}
    {out : FsPath} {fs' : FS}
    (h : installAll fs (t :: ts) out = (fs', none)) :
    ∃ fs1, installOne fs (binPath t) out = (fs1, none) ∧
      installAll fs1 ts out = (fs', none) := by
  unfold installAll at h
  rcases h1 : installOne fs (binPath t) out with ⟨fs1, e1⟩
  rw [h1] at h
  cases e1 with
  | none => exact ⟨fs1, rfl, h⟩
  | some e2 => exact absurd (congrArg Prod.snd h) (by simp)

theorem installAll_ok_lookup {names : List String} {fs : FS} {out : FsPath}
    {fs' : FS} (h : installAll fs names out = (fs', none)) :
    ∀ t ∈ names, lookupFs fs' (binPath t) = some (FsNode.symlink out) := by
  induction names generalizing fs with
  | nil => intro t ht; cases ht
  | cons u ts ih =>
      obtain ⟨fs1, h1, h2⟩ := installAll_ok_cons h
      intro t ht
      by_cases hts : t ∈ ts
      · exact ih h2 t hts
      · have htu : t = u := by
          rcases List.mem_cons.mp ht with h | h
          · exact h
          · exact absurd h hts
        subst htu
        have hfr : lookupFs fs' (binPath t) = lookupFs fs1 (binPath t) :=
          installAll_frame h2 (fun v hv hx => hts (binPath_inj hx ▸ hv))
        rw [hfr]
        exact installOne_ok_lookup h1

theorem installAll_ok_domain {names : List String} {fs : FS} {out : FsPath}
    {fs' : FS} (h : installAll fs names out = (fs', none)) (p : FsPath) :
    (lookupFs fs' p).isSome ↔
      ((lookupFs fs p).isSome ∨ ∃ t ∈ names, p = binPath t) := by
  induction names generalizing fs with
  | nil =>
      unfold installAll at h
      cases h
      simp
  | cons u ts ih =>
      obtain ⟨fs1, h1, h2⟩ := installAll_ok_cons h
      rw [ih h2, installOne_ok_domain h1 p]
      constructor
      · rintro ((hfs | hu) | ⟨t, ht, hp⟩)
        · exact Or.inl hfs
        · exact Or.inr ⟨u, List.mem_cons_self u ts, hu⟩
        · exact Or.inr ⟨t, List.mem_cons_of_mem _ ht, hp⟩
      · rintro (hfs | ⟨t, ht, hp⟩)
        · exact Or.inl (Or.inl hfs)
        · rcases List.mem_cons.mp ht with he | hts
          · exact Or.inl (Or.inr (he ▸ hp))
          · exact Or.inr ⟨t, hts, hp⟩

/-! ### Atomic-write lemmas -/

theorem dropLast_append_one {α : Type} (xs : List α) (a : α) :
    (xs ++ [a]).dropLast = xs := by
  induction xs with
  | nil => rfl
  | cons x xs ih =>
      cases xs with
      | nil => rfl
      | cons y ys => simp [List.dropLast, ih]

theorem atomicWrite_run (fs : FS) (path : FsPath) (data : String)
    (tmpName : String) :
    runOps fs (atomicWriteOps path data tmpName) =
      insertFs
        (eraseFs
          (insertFs
            (insertFs fs (path.dropLast ++ [tmpName]) (FsNode.file ("")))
            (path.dropLast ++ [tmpName]) (FsNode.file data))
          (path.dropLast ++ [tmpName]))
        path (FsNode.file data) := by
  simp [runOps, atomicWriteOps, applyOp, lookupFs_insert_self]

theorem atomicWrite_target (fs : FS) (path : FsPath) (data : String)
    (tmpName : String) :
    lookupFs (runOps fs (atomicWriteOps path data tmpName)) path =
      some (FsNode.file data) := by
  rw [atomicWrite_run]
  exact lookupFs_insert_self _ _ _

theorem atomicWrite_frame (fs : FS) (path : FsPath) (data : String)
    (tmpName : String) (q : FsPath) (hq1 : q ≠ path)
    (hq2 : q ≠ path.dropLast ++ [tmpName]) :
    lookupFs (runOps fs (atomicWriteOps path data tmpName)) q =
      lookupFs fs q := by
  rw [atomicWrite_run, lookupFs_insert_ne _ _ _ _ hq1,
    lookupFs_erase_ne _ _ _ hq2, lookupFs_insert_ne _ _ _ _ hq2,
    lookupFs_insert_ne _ _ _ _ hq2]

theorem atomicWrite_tmp_lookup (fs : FS) (path : FsPath) (data : String)
    (tmpName : String) (h : path.dropLast ++ [tmpName] ≠ path) :
    lookupFs (runOps fs (atomicWriteOps path data tmpName))
      (path.dropLast ++ [tmpName]) = none := by
  rw [atomicWrite_run, lookupFs_insert_ne _ _ _ _ h]
  exact lookupFs_erase_self _ _

/-! ### Validator and basename lemmas -/

theorem matchesCore_no_slash {l : List Char} (h : matchesCore l = true) :
    '/' ∉ l := by
  cases l with
  | nil => simp
  | cons c cs =>
      simp only [matchesCore, Bool.and_eq_true, List.all_eq_true] at h
      intro hmem
      rcases List.mem_cons.mp hmem with hc | hcs
      · rw [← hc] at h
        exact absurd h.1 (by decide)
      · exact absurd (h.2 '/' hcs) (by decide)

theorem foldl_basename_app (cs : List Char) :
    ∀ acc : List Char, '/' ∉ cs →
      cs.foldl (fun acc c => if c = '/' then [] else acc ++ [c]) acc =
        acc ++ cs := by
  induction cs with
  | nil => intro acc _; simp
  | cons c cs ih =>
      intro acc h
      have hc : ¬c = '/' := fun hx => h (hx ▸ List.mem_cons_self c cs)
      have hcs : '/' ∉ cs := fun hx => h (List.mem_cons_of_mem c hx)
      simp only [List.foldl, hc, if_false, ih (acc ++ [c]) hcs,
        List.append_assoc, List.singleton_append]

theorem basename_of_matches {t : String} (h : matchesToolRe t = true) :
    basename t = t := by
  unfold basename
  rw [foldl_basename_app t.data [] (matchesCore_no_slash h)]
  cases t
  rfl

theorem isHelpFlag_false_of_matches {t : String}
    (h : matchesToolRe t = true) : isHelpFlag t = false := by
  by_cases h1 : t = "--help"
  · rw [h1] at h
    exact absurd h (by decide)
  · by_cases h2 : t = "-h"
    · rw [h2] at h
      exact absurd h (by decide)
    · simp [isHelpFlag, h1, h2]

/-! ### Claim theorems -/

/-- Claim C4: the claim states that during build()'s install step every
prior state of an entry-point name (absent, present, or present but
dangling) is replaced by a fresh symlink to the new binary.  The code is
wrong on the dangling case: `Path.exists()` follows symlinks and reports
`false` for a dangling link, so the old link is not unlinked, and
`Path.symlink_to` then raises `FileExistsError` because the directory
entry still exists — aborting the install loop.  This theorem evaluates
the code at that failing input: a `bin/ping` symlink whose target is
gone is still present (third conjunct) yet `exists()` is false (second),
the single-name install step fails leaving the stale link in place
(first), and a whole `cmd_build` run over a one-tool registry aborts
with `FileExistsError` (fourth). -/
theorem c4_dangling_entry_point_bug :
    installOne [(binPath ("ping"), FsNode.symlink ["old", "gone"])]
        (binPath ("ping")) outPath =
      ([(binPath ("ping"), FsNode.symlink ["old", "gone"])],
        some Err.fileExistsError)
    ∧ pathExists [(binPath ("ping"), FsNode.symlink ["old", "gone"])]
        (binPath ("ping")) = false
    ∧ (lookupFs [(binPath ("ping"), FsNode.symlink ["old", "gone"])]
        (binPath ("ping"))).isSome = true
    ∧ (cmd_build
          [(toolsPath ("ping"), FsNode.file ("src")),
           (binPath ("ping"), FsNode.symlink ["old", "path"])]
          (some ("cc")) none ("t0") true).2 = some Err.fileExistsError := by
  refine ⟨by decide, by decide, by decide, by decide⟩

/-- Claim C5: `atomic_write(path, content)` writes a temporary file in
the same directory as the target (first conjunct), its final operation
is a single rename of that temporary onto the target (second), every
proper prefix of its operation sequence — i.e. any interruption before
the final rename — leaves the target path's prior content or absence
unchanged (third), and running the whole sequence makes exactly the new
content visible at the target (fourth). -/
theorem c5_atomic_write (fs : FS) (path : FsPath) (data : String)
    (tmpName : String) (htmp : path.dropLast ++ [tmpName] ≠ path) :
    (path.dropLast ++ [tmpName]).dropLast = path.dropLast
    ∧ (atomicWriteOps path data tmpName).getLast? =
        some (FsOp.rename (path.dropLast ++ [tmpName]) path)
    ∧ (∀ k, k < (atomicWriteOps path data tmpName).length →
        lookupFs (runOps fs ((atomicWriteOps path data tmpName).take k))
          path = lookupFs fs path)
    ∧ lookupFs (runOps fs (atomicWriteOps path data tmpName)) path =
        some (FsNode.file data) := by
  have hpt : path ≠ path.dropLast ++ [tmpName] := fun hx => htmp hx.symm
  refine ⟨dropLast_append_one _ _, rfl, ?_, atomicWrite_target fs path data tmpName⟩
  intro k hk
  match k with
  | 0 => rfl
  | 1 =>
      show lookupFs (runOps fs [FsOp.createTmp (path.dropLast ++ [tmpName])])
          path = lookupFs fs path
      simp only [runOps, List.foldl, applyOp]
      exact lookupFs_insert_ne _ _ _ _ hpt
  | 2 =>
      show lookupFs (runOps fs
          [FsOp.createTmp (path.dropLast ++ [tmpName]),
           FsOp.writeTmp (path.dropLast ++ [tmpName]) data]) path =
        lookupFs fs path
      simp only [runOps, List.foldl, applyOp]
      rw [lookupFs_insert_ne _ _ _ _ hpt]
      exact lookupFs_insert_ne _ _ _ _ hpt
  | (n + 3) =>
      exact absurd hk (by simp [atomicWriteOps])

/-- Witness for C5 at a concrete input: target `build/main.c`, temp name
`t0`, empty filesystem.  Interrupting after two of the three operations
leaves the target absent, and the full run deposits the content. -/
theorem c5_atomic_write_witness :
    lookupFs (runOps ([] : FS)
        ((atomicWriteOps buildMainC ("d") ("t0")).take 2)) buildMainC =
      lookupFs ([] : FS) buildMainC
    ∧ lookupFs (runOps ([] : FS) (atomicWriteOps buildMainC ("d") ("t0")))
        buildMainC = some (FsNode.file ("d")) := by
  have h := c5_atomic_write ([] : FS) buildMainC ("d") ("t0") (by decide)
  exact ⟨h.2.2.1 2 (by decide), h.2.2.2⟩

/-- Claim C6 counterexample: the claim says `validate(s)` succeeds iff
`s` matches `^[a-z][a-z0-9_]*$`, for all strings.  Python's `re` lets
`$` match just before a trailing newline, so `validate_tool` accepts
the string `"ab\n"` even though it is not in the regular expression's
language. -/
theorem c6_trailing_newline_counterexample :
    validate_tool ("ab\n") = Except.ok ("ab\n")
    ∧ matchesToolRe ("ab\n") = false := by
  refine ⟨rfl, by decide⟩

/-- Claim C6 as amended: `validate_tool s` succeeds (returning `s`
unchanged, with no effect on any state) iff `s` matches
`[a-z][a-z0-9_]*` in full, or `s` is such a match followed by one
trailing newline — the exact semantics of Python's `re.match` with an
unanchored-`$` pattern.  Every other string is rejected with the
invalid-name error. -/
theorem c6_validate_grammar (s : String) :
    (validate_tool s = Except.ok s) ↔
      (matchesToolRe s = true ∨
        (s.data.getLast? = some '\n' ∧ matchesCore s.data.dropLast = true)) := by
  have hiff : pyMatchToolRe s = true ↔
      (matchesToolRe s = true ∨
        (s.data.getLast? = some '\n' ∧ matchesCore s.data.dropLast = true)) := by
    unfold pyMatchToolRe
    cases hl : s.data.getLast? with
    | none => simp
    | some c => simp
  rw [← hiff]
  unfold validate_tool
  by_cases h : pyMatchToolRe s = true
  · simp [h]
  · simp [h]

/-- Claim C7 counterexample: the claim says `list()` skips every file
whose stem fails name validation.  toolbox.py's `list_tools` applies no
validation at all: a foreign file `9bad.c` yields the invalid stem
`9bad` in the listing. -/
theorem c7_invalid_stem_counterexample :
    list_tools ["9bad.c"] = ["9bad"]
    ∧ matchesToolRe ("9bad") = false := by
  refine ⟨by decide, by decide⟩

/-- Claim C7 as amended: `list_tools` returns the lexicographically
sorted stems of exactly the `*.c` files in the registry directory, with
no name validation — stems that fail validation are included, not
skipped.  (The simpler variant, manager.py's `construct`, does filter,
but by its own more permissive `is_valid_tool_name`.) -/
theorem c7_list_tools_sorted_unfiltered (files : List String) :
    List.Sorted (fun a b : String => a ≤ b) (list_tools files)
    ∧ (∀ n, n ∈ list_tools files ↔
        ∃ f, f ∈ files ∧ isCFile f = true ∧ stemOfC f = n) := by
  constructor
  · exact List.sorted_insertionSort _ _
  · intro n
    unfold list_tools
    rw [List.mem_insertionSort]
    simp only [List.mem_map, List.mem_filter]
    constructor
    · rintro ⟨f, ⟨hf, hc⟩, hs⟩
      exact ⟨f, hf, hc, hs⟩
    · rintro ⟨f, hf, hc, hs⟩
      exact ⟨f, ⟨hf, hc⟩, hs⟩

/-- Claim C8: for a valid name whose module already exists as a regular
file with content `c`, `cmd_create` fails with the already-exists error,
never overwrites, and leaves the pre-existing module's content
unchanged. -/
theorem c8_create_no_overwrite (fs : FS) (n c tmpName : String)
    (hv : pyMatchToolRe n = true)
    (hm : lookupFs fs (toolsPath n) = some (FsNode.file c)) :
    cmd_create fs n tmpName = (fs, some Err.alreadyExists)
    ∧ lookupFs (cmd_create fs n tmpName).1 (toolsPath n) =
        some (FsNode.file c) := by
  have hex : pathExists fs (toolsPath n) = true := by
    simp [pathExists, hm]
  have hcall : cmd_create fs n tmpName = (fs, some Err.alreadyExists) := by
    simp [cmd_create, validate_tool, hv, hex]
  exact ⟨hcall, by rw [hcall]; exact hm⟩

/-- Witness for C8: creating `ping` twice — with the module present, the
second call fails with the already-exists error and the module body is
untouched. -/
theorem c8_create_no_overwrite_witness :
    cmd_create [(toolsPath ("ping"), FsNode.file ("X"))] ("ping") ("t0") =
      ([(toolsPath ("ping"), FsNode.file ("X"))], some Err.alreadyExists)
    ∧ lookupFs (cmd_create [(toolsPath ("ping"), FsNode.file ("X"))]
        ("ping") ("t0")).1 (toolsPath ("ping")) = some (FsNode.file ("X")) := by
  exact c8_create_no_overwrite [(toolsPath ("ping"), FsNode.file ("X"))]
    ("ping") ("X") ("t0") (by decide) (by decide)

/-- Claim C9 counterexample: the claim says that in every state with an
empty registry, `build()` fails with the no-tools error.  `cmd_build`
resolves a compiler first, so in a state where the registry is empty
and neither gcc nor clang is on the path it fails with the no-compiler
error instead (still without writing anything). -/
theorem c9_no_compiler_counterexample :
    cmd_build ([] : FS) none none ("t") true = ([], some Err.noCompiler)
    ∧ Err.noCompiler ≠ Err.noTools
    ∧ toolsList ([] : FS) = [] := by
  refine ⟨by decide, by decide, by decide⟩

/-- Claim C9 as amended: in every state where the registry listing is
empty and a compiler is resolvable, `cmd_build` fails with the no-tools
error and returns the filesystem unchanged — in particular it performs
no writes to the build root or the install root. -/
theorem c9_empty_registry (fs : FS) (gcc clang : Option String)
    (tmpName : String) (compileOk : Bool) (cc : String)
    (hcc : find_cc gcc clang = Except.ok cc)
    (hempty : toolsList fs = []) :
    cmd_build fs gcc clang tmpName compileOk = (fs, some Err.noTools) := by
  simp [cmd_build, hcc, hempty]

/-- Witness for C9 at a concrete input: an empty filesystem with gcc
available. -/
theorem c9_empty_registry_witness :
    cmd_build ([] : FS) (some ("gcc")) none ("t") true =
      ([], some Err.noTools) := by
  exact c9_empty_registry ([] : FS) (some ("gcc")) none ("t") true ("gcc")
    rfl (by decide)

/-- Claim C10: for a valid name `n` whose module does not exist and a
fresh temporary-file name, `cmd_create` succeeds, the module file for
`n` holds exactly the skeleton `tool_template n`, and every other path
— every other registry module, everything under the build root, and
every installed entry point — is unchanged (the temporary file has been
renamed away). -/
theorem c10_create_frame (fs : FS) (n tmpName : String)
    (hv : pyMatchToolRe n = true)
    (habs : lookupFs fs (toolsPath n) = none)
    (hfresh : lookupFs fs ((toolsPath n).dropLast ++ [tmpName]) = none) :
    (cmd_create fs n tmpName).2 = none
    ∧ lookupFs (cmd_create fs n tmpName).1 (toolsPath n) =
        some (FsNode.file (tool_template n))
    ∧ ∀ q, q ≠ toolsPath n →
        lookupFs (cmd_create fs n tmpName).1 q = lookupFs fs q := by
  have hex : pathExists fs (toolsPath n) = false := by
    simp [pathExists, habs]
  have hcall : cmd_create fs n tmpName =
      (runOps fs (atomicWriteOps (toolsPath n) (tool_template n) tmpName),
        none) := by
    simp [cmd_create, validate_tool, hv, hex]
  refine ⟨by rw [hcall], ?_, ?_⟩
  · rw [hcall]
    exact atomicWrite_target _ _ _ _
  · intro q hq
    rw [hcall]
    by_cases hqt : q = (toolsPath n).dropLast ++ [tmpName]
    · subst hqt
      rw [atomicWrite_tmp_lookup _ _ _ _ (fun hx => hq hx)]
      exact hfresh.symm
    · exact atomicWrite_frame _ _ _ _ _ hq hqt

/-- Witness for C10 at a concrete input: creating `ping` in an empty
filesystem succeeds, deposits exactly the skeleton at
`tools/ping.c`, and leaves (for example) the `bin/x` entry point and the
`tools/t0` temporary name exactly as they were. -/
theorem c10_create_frame_witness :
    (cmd_create ([] : FS) ("ping") ("t0")).2 = none
    ∧ lookupFs (cmd_create ([] : FS) ("ping") ("t0")).1
        (toolsPath ("ping")) = some (FsNode.file (tool_template ("ping")))
    ∧ lookupFs (cmd_create ([] : FS) ("ping") ("t0")).1 (binPath ("x")) =
        lookupFs ([] : FS) (binPath ("x"))
    ∧ lookupFs (cmd_create ([] : FS) ("ping") ("t0")).1 ["tools", "t0"] =
        lookupFs ([] : FS) ["tools", "t0"] := by
  have h := c10_create_frame ([] : FS) ("ping") ("t0") (by decide)
    (by decide) (by decide)
  exact ⟨h.1, h.2.1, h.2.2 (binPath ("x")) (by decide),
    h.2.2 ["tools", "t0"] (by decide)⟩

theorem binPath_ne_outPath (s : String) : binPath s ≠ outPath := by
  intro hx
  injection hx with h1 h2
  exact absurd h1 (by decide)

theorem binPath_ne_buildMainC (s : String) : binPath s ≠ buildMainC := by
  intro hx
  injection hx with h1 h2
  exact absurd h1 (by decide)

theorem binPath_ne_buildTmp (s tmpName : String) :
    binPath s ≠ buildMainC.dropLast ++ [tmpName] := by
  intro hx
  have hbt : buildMainC.dropLast ++ [tmpName] = ["build", tmpName] := rfl
  rw [hbt] at hx
  injection hx with h1 h2
  exact absurd h1 (by decide)

/-- Claim C1 counterexample: the claim says that after a successful
build the set of installed entry points *equals* `{tool names} ∪ {app
name}`.  `cmd_build` never prunes stale entry points: starting from a
state with a leftover `bin/zzz` link and a registry containing only
`ping`, the build succeeds, yet `zzz` is still an installed entry point
even though it is in neither the tool names nor the app name. -/
theorem c1_stale_entry_counterexample :
    (cmd_build
        [(toolsPath ("ping"), FsNode.file ("src")),
         (binPath ("zzz"), FsNode.symlink ["bin", "zzz_old"])]
        (some ("cc")) none ("t0") true).2 = none
    ∧ (lookupFs (cmd_build
        [(toolsPath ("ping"), FsNode.file ("src")),
         (binPath ("zzz"), FsNode.symlink ["bin", "zzz_old"])]
        (some ("cc")) none ("t0") true).1 (binPath ("zzz"))).isSome = true
    ∧ ¬("zzz" ∈ toolsList
        [(toolsPath ("ping"), FsNode.file ("src")),
         (binPath ("zzz"), FsNode.symlink ["bin", "zzz_old"])] ++
          [APP_NAME]) := by
  refine ⟨by decide, by decide, by decide⟩

/-- Claim C1 as amended: after every successful run of `cmd_build`,
every name in `{tool names} ∪ {app name}` is an installed entry point
resolving to the newly built binary, and the set of installed
entry-point names equals the prior set united with
`{tool names} ∪ {app name}` — pre-existing (stale) entry points are
kept, not pruned. -/
theorem c1_entry_point_set (fs : FS) (gcc clang : Option String)
    (tmpName : String) (compileOk : Bool) (fs' : FS)
    (h : cmd_build fs gcc clang tmpName compileOk = (fs', none)) :
    (∀ t ∈ toolsList fs ++ [APP_NAME],
        lookupFs fs' (binPath t) = some (FsNode.symlink outPath))
    ∧ (∀ s, (lookupFs fs' (binPath s)).isSome ↔
        ((lookupFs fs (binPath s)).isSome ∨
          s ∈ toolsList fs ++ [APP_NAME])) := by
  unfold cmd_build at h
  split at h
  · exact absurd (congrArg Prod.snd h) (by simp)
  · split at h
    · exact absurd (congrArg Prod.snd h) (by simp)
    · split at h
      · refine ⟨installAll_ok_lookup h, ?_⟩
        intro s
        rw [installAll_ok_domain h (binPath s)]
        have hpre : lookupFs
            (insertFs
              (runOps fs
                (atomicWriteOps buildMainC
                  (dispatcher_template (toolsList fs)) tmpName))
              outPath (FsNode.file ("ELF"))) (binPath s) =
            lookupFs fs (binPath s) := by
          rw [lookupFs_insert_ne _ _ _ _ (binPath_ne_outPath s)]
          exact atomicWrite_frame _ _ _ _ _ (binPath_ne_buildMainC s)
            (binPath_ne_buildTmp s tmpName)
        rw [hpre]
        constructor
        · rintro (hfs | ⟨t, ht, hp⟩)
          · exact Or.inl hfs
          · exact Or.inr (by rw [binPath_inj hp]; exact ht)
        · rintro (hfs | hs)
          · exact Or.inl hfs
          · exact Or.inr ⟨s, hs, rfl⟩
      · exact absurd (congrArg Prod.snd h) (by simp)

/-- Witness for C1 at a concrete input: a one-tool registry builds
successfully; the `ping` entry point resolves to the built binary and
the domain equation holds at the name `zzz`. -/
theorem c1_entry_point_set_witness :
    lookupFs (cmd_build [(toolsPath ("ping"), FsNode.file ("src"))]
        (some ("cc")) none ("t0") true).1 (binPath ("ping")) =
      some (FsNode.symlink outPath)
    ∧ ((lookupFs (cmd_build [(toolsPath ("ping"), FsNode.file ("src"))]
          (some ("cc")) none ("t0") true).1 (binPath ("zzz"))).isSome ↔
        ((lookupFs [(toolsPath ("ping"), FsNode.file ("src"))]
          (binPath ("zzz"))).isSome ∨
          "zzz" ∈ toolsList [(toolsPath ("ping"), FsNode.file ("src"))] ++
            [APP_NAME])) := by
  have h2 : (cmd_build [(toolsPath ("ping"), FsNode.file ("src"))]
      (some ("cc")) none ("t0") true).2 = none := by decide
  have h : cmd_build [(toolsPath ("ping"), FsNode.file ("src"))]
      (some ("cc")) none ("t0") true =
      ((cmd_build [(toolsPath ("ping"), FsNode.file ("src"))]
        (some ("cc")) none ("t0") true).1, none) := by
    rw [← h2]
  have hc := c1_entry_point_set [(toolsPath ("ping"), FsNode.file ("src"))]
    (some ("cc")) none ("t0") true _ h
  exact ⟨hc.1 ("ping") (by decide), hc.2 ("zzz")⟩

/-- Claim C2 counterexample: the claim quantifies over every registered
tool name.  Nothing stops the registry from containing a tool whose
name is the canonical app name `toolbox` itself; for that name, with
the empty argument list (which does not begin with a help flag),
invoking the binary through the `toolbox` entry point as `[t]` prints
the global listing, while invoking the canonical binary as
`[app-name, t]` calls the tool's entry function — not identical
behaviour. -/
theorem c2_app_named_tool_counterexample :
    cMain ["toolbox"] ("toolbox") [] = DispatchResult.globalHelp
    ∧ cMain ["toolbox"] APP_NAME ["toolbox"] =
        DispatchResult.callTool ("toolbox") 1 ["toolbox"]
    ∧ DispatchResult.globalHelp ≠
        DispatchResult.callTool ("toolbox") 1 ["toolbox"] := by
  refine ⟨by decide, by decide, by decide⟩

/-- Claim C2 as amended: for every registered tool name `t` *other than
the canonical app name*, and every argument list not beginning with a
help flag, invoking the built binary through the entry point named `t`
with vector `[t, ...args]` behaves identically to invoking the
canonical binary as `[app-name, t, ...args]`: both dispatch to `t`'s
entry function with the same argc and the same (original) argument
vector. -/
theorem c2_symlink_canonical_equiv (tools : List String) (t : String)
    (args : List String) (hmem : t ∈ tools) (hne : t ≠ APP_NAME)
    (hv : matchesToolRe t = true)
    (hargs : ∀ a, args.head? = some a → isHelpFlag a = false) :
    cMain tools t args = cMain tools APP_NAME (t :: args)
    ∧ cMain tools t args =
        DispatchResult.callTool t (args.length + 1) (t :: args) := by
  have hbase : basename t = t := basename_of_matches hv
  have hht : isHelpFlag t = false := isHelpFlag_false_of_matches hv
  have hfirst : helpFirst (t :: args) = false := by
    cases args with
    | nil => rfl
    | cons a as => exact hargs a rfl
  have hbApp : basename APP_NAME = APP_NAME := by decide
  have hA : cMain tools t args =
      DispatchResult.callTool t (args.length + 1) (t :: args) := by
    simp [cMain, dispatch, hfirst, hbase, hne, hmem]
  have hfApp : helpFirst (APP_NAME :: t :: args) = false := by
    simp [helpFirst, hht]
  have hB : cMain tools APP_NAME (t :: args) =
      DispatchResult.callTool t (args.length + 1) (t :: args) := by
    simp [cMain, dispatch, hbApp, hfApp, hfirst, hmem]
  exact ⟨hA.trans hB.symm, hA⟩

/-- Witness for C2 at a concrete input: registry `{ping}`, entry point
`ping`, arguments `["-x"]`. -/
theorem c2_symlink_canonical_equiv_witness :
    cMain ["ping"] ("ping") ["-x"] = cMain ["ping"] APP_NAME ["ping", "-x"]
    ∧ cMain ["ping"] ("ping") ["-x"] =
        DispatchResult.callTool ("ping") 2 ["ping", "-x"] := by
  have h := c2_symlink_canonical_equiv ["ping"] ("ping") ["-x"]
    (by decide) (by decide) (by decide)
    (fun a ha => by cases Option.some.inj ha; decide)
  exact ⟨h.1, h.2⟩

/-- Claim C3 counterexample: the claim says that whenever a help flag
is the first argument after the resolved command, the dispatcher prints
*that tool's* help text (or a generic usage line).  Invoking the `ping`
entry point as `["ping", "-h"]` resolves the command `ping` with `-h`
as first argument, yet the generated `main` intercepts the help flag
before symlink dispatch and prints the *global* command listing, not
the per-tool help. -/
theorem c3_symlink_help_counterexample :
    cMain ["ping"] ("ping") ["-h"] = DispatchResult.globalHelp
    ∧ DispatchResult.globalHelp ≠ DispatchResult.toolHelp ("ping") := by
  refine ⟨by decide, by decide⟩

/-- Claim C3 as amended: with a help flag directly after the resolved
command, the dispatcher always exits 0 without calling the tool's entry
function, but which help it prints depends on the invocation: through
the canonical binary as `[app-name, t, help-flag, ...]` it prints tool
`t`'s help (the help text when the weak symbol is present, else the
generic one-line usage string); through the tool's own entry point as
`[t, help-flag, ...]` it prints the global command listing instead. -/
theorem c3_help_flag_routing (tools : List String) (t a : String)
    (args : List String) (hmem : t ∈ tools) (ha : isHelpFlag a = true)
    (hv : matchesToolRe t = true) :
    cMain tools APP_NAME (t :: a :: args) = DispatchResult.toolHelp t
    ∧ cMain tools t (a :: args) = DispatchResult.globalHelp
    ∧ (∀ f n v, DispatchResult.toolHelp t ≠ DispatchResult.callTool f n v)
    ∧ (∀ f n v, DispatchResult.globalHelp ≠ DispatchResult.callTool f n v)
    ∧ (∀ d htext, tool_help_output t d (some htext) =
        descPart t d ++ (htext ++ "\n"))
    ∧ (∀ d, tool_help_output t d none =
        descPart t d ++ ("Usage: " ++ t ++ " [args]\n")) := by
  have hht : isHelpFlag t = false := isHelpFlag_false_of_matches hv
  have hbApp : basename APP_NAME = APP_NAME := by decide
  refine ⟨?_, ?_, ?_, ?_, fun d htext => rfl, fun d => rfl⟩
  · simp [cMain, dispatch, helpFirst, hbApp, hht, ha]
  · simp [cMain, helpFirst, ha]
  · exact fun f n v hx => DispatchResult.noConfusion hx
  · exact fun f n v hx => DispatchResult.noConfusion hx

/-- Witness for C3 at a concrete input: registry `{ping}` with the
`-h` flag; the canonical route prints per-tool help, the symlink route
prints the global listing, and with no help symbol the per-tool help is
the generic usage line. -/
theorem c3_help_flag_routing_witness :
    cMain ["ping"] APP_NAME ["ping", "-h"] = DispatchResult.toolHelp ("ping")
    ∧ cMain ["ping"] ("ping") ["-h"] = DispatchResult.globalHelp
    ∧ tool_help_output ("ping") none none = "Usage: ping [args]\n" := by
  have h := c3_help_flag_routing ["ping"] ("ping") ("-h") [] (by decide)
    (by decide) (by decide)
  refine ⟨h.1, h.2.1, ?_⟩
  rw [h.2.2.2.2.2 none]
  rfl

end Toolbox
